import Mathlib

set_option maxRecDepth 16384

/-!
Verification of the instlatx64-vtfeatures core: the AIDA dump parser
(`src/aida_parse.rs`), the CPU-information capability interface
(`src/cpu_information.rs`) and the feature-expression evaluator
(`src/features.rs`), shallowly embedded in Lean.  Machine integers
(`u32`, `u64`) are modelled as `Nat`; every parsed field is bounded by
construction exactly where the Rust code guarantees a bound.  Rust
panics (assertion failures and `expect` on `Err`) are modelled as
explicit outcome constructors, never as Lean partiality.
-/

/-! ## Register data model (`src/cpu_information.rs`) -/

/-- The input to a `cpuid` invocation (struct `CpuidQuery`). -/
structure CpuidQuery where
  leaf : Nat
  subleaf : Nat
deriving DecidableEq, Repr

/-- The result of a `cpuid` invocation (struct `CpuidResult`). -/
structure CpuidResult where
  eax : Nat
  ebx : Nat
  ecx : Nat
  edx : Nat
deriving DecidableEq, Repr

/-- The registers of a `CpuidResult` (enum `CpuidRegister`). -/
inductive CpuidRegister where
  | Eax
  | Ebx
  | Ecx
  | Edx
deriving DecidableEq, Repr

/-- `CpuidResult::get`: retrieve a register value from a CPUID result. -/
def CpuidResult.get (r : CpuidResult) (reg : CpuidRegister) : Nat :=
  match reg with
  | .Eax => r.eax
  | .Ebx => r.ebx
  | .Ecx => r.ecx
  | .Edx => r.edx

/-- The trait `CpuInformation`: a data source answering `cpuid` and `rdmsr`
queries, where `none` means the result is unknown.  A trait object is
modelled as a structure of its two required methods. -/
structure CpuInformation where
  cpuid : CpuidQuery → Option CpuidResult
  rdmsr : Nat → Option Nat

/-- Modelled from the spec: the method `is_cpuid_query_valid` that the
evaluator calls is declared outside the provided source files.  Per the
spec, the processor-identification predicate treats a leaf/subleaf as
invalid exactly when the underlying data source reports it as
absent, i.e. when `cpuid` returns no result. -/
def CpuInformation.is_cpuid_query_valid (info : CpuInformation) (q : CpuidQuery) : Bool :=
  (info.cpuid q).isSome

/-- `CpuInformation::max_standard_leaf` (default trait method). -/
def CpuInformation.max_standard_leaf (info : CpuInformation) : Nat :=
  ((info.cpuid ⟨0, 0⟩).map CpuidResult.eax).getD 0

/-- `CpuInformation::max_extended_leaf` (default trait method). -/
def CpuInformation.max_extended_leaf (info : CpuInformation) : Nat :=
  ((info.cpuid ⟨0x80000000, 0⟩).map CpuidResult.eax).getD 0x80000000

/-! ## Feature expressions (`src/features.rs`) -/

/-- The expression language `BoolExpression`.  Bit indices (`type Bit = u8`)
are modelled as `Nat`. -/
inductive BoolExpression where
  | CpuidBitSet (query : CpuidQuery) (reg : CpuidRegister) (bit : Nat)
  | MsrBitSet (index : Nat) (bit : Nat)
  | And (e1 e2 : BoolExpression)
  | Or (e1 e2 : BoolExpression)
  | Not (e : BoolExpression)
deriving DecidableEq, Repr

/-- Outcome of `BoolExpression::evaluate`: either one of the three
tri-state values (`Option Bool`, with `none` for unknown), or a Rust
panic raised by one of the `assert!` statements. -/
inductive EvalOutcome where
  | assertFailed
  | result (v : Option Bool)
deriving DecidableEq, Repr

/-- `BoolExpression::evaluate`.  The `&&` / `||` in the Rust source
short-circuit: when the first operand already decides the result, the
second operand is not evaluated at all (so neither its unknown-ness nor
a failing assertion in it can surface). -/
def BoolExpression.evaluate : BoolExpression → CpuInformation → EvalOutcome
  | .CpuidBitSet query reg bit, info =>
    if bit < 32 then
      if info.is_cpuid_query_valid query then
        match info.cpuid query with
        | none => .result none
        | some r => .result (some ((r.get reg &&& (1 <<< bit)) != 0))
      else
        .result (some false)
    else
      .assertFailed
  | .MsrBitSet index bit, info =>
    if bit < 64 then
      match info.rdmsr index with
      | none => .result none
      | some v => .result (some ((v &&& (1 <<< bit)) != 0))
    else
      .assertFailed
  | .And e1 e2, info =>
    match e1.evaluate info with
    | .assertFailed => .assertFailed
    | .result none => .result none
    | .result (some false) => .result (some false)
    | .result (some true) => e2.evaluate info
  | .Or e1 e2, info =>
    match e1.evaluate info with
    | .assertFailed => .assertFailed
    | .result none => .result none
    | .result (some true) => .result (some true)
    | .result (some false) => e2.evaluate info
  | .Not e, info =>
    match e.evaluate info with
    | .assertFailed => .assertFailed
    | .result v => .result (v.map not)

/-- Well-formedness of an expression: every CPUID bit test uses a bit
index below 32 and every MSR bit test one below 64 (the bounds the
`assert!` statements in `evaluate` check). -/
def BoolExpression.bitsInRange : BoolExpression → Bool
  | .CpuidBitSet _ _ bit => decide (bit < 32)
  | .MsrBitSet _ bit => decide (bit < 64)
  | .And e1 e2 => e1.bitsInRange && e2.bitsInRange
  | .Or e1 e2 => e1.bitsInRange && e2.bitsInRange
  | .Not e => e.bitsInRange

/-- A data source that knows nothing. -/
def emptyInfo : CpuInformation :=
  ⟨fun _ => none, fun _ => none⟩

/-- A data source whose every CPUID leaf reads as `eax = 1` and that has
no MSR data. -/
def onesInfo : CpuInformation :=
  ⟨fun _ => some ⟨1, 0, 0, 0⟩, fun _ => none⟩

/-! ## The map model

`aida_parse.rs` uses `BTreeMap` (re-exported as `Map`) only through
`collect` (insert every pair in iteration order, later keys
overwriting earlier ones) and `get`.  We model a map as its lookup
function and `collect` as a left fold of single-key insertion. -/

/-- A `BTreeMap`, observed through `get`. -/
def Map (α β : Type) : Type := α → Option β

/-- The empty map. -/
def Map.empty {α β : Type} : Map α β := fun _ => none

/-- Insert a key/value pair, overwriting any previous value of the key. -/
def Map.insert {α β : Type} [DecidableEq α] (m : Map α β) (k : α) (v : β) : Map α β :=
  fun k' => if k' = k then some v else m k'

/-- `collect::<BTreeMap<_, _>>()` on a sequence of pairs. -/
def Map.ofList {α β : Type} [DecidableEq α] (l : List (α × β)) : Map α β :=
  l.foldl (fun m p => m.insert p.1 p.2) Map.empty

/-! ## Hex parsing (`src/aida_parse.rs`) -/

/-- Membership in the regex character class `[0-9a-fA-F]`. -/
def isHexDigit (c : Char) : Bool :=
  (decide ('0' ≤ c) && decide (c ≤ '9')) ||
    (decide ('a' ≤ c) && decide (c ≤ 'f')) ||
    (decide ('A' ≤ c) && decide (c ≤ 'F'))

/-- Numeric value of one hex digit. -/
def hexVal (c : Char) : Nat :=
  if decide ('0' ≤ c) && decide (c ≤ '9') then c.toNat - '0'.toNat
  else if decide ('a' ≤ c) && decide (c ≤ 'f') then c.toNat - 'a'.toNat + 10
  else c.toNat - 'A'.toNat + 10

/-- Base-16 value of a digit string (Horner evaluation). -/
def hexListVal (l : List Char) : Nat :=
  l.foldl (fun a c => 16 * a + hexVal c) 0

/-- `uN::from_str_radix(s, 16)`: fails (`Err`) on an empty digit
string, a non-digit character, or a value that does not fit below
`bound` (the width's overflow limit). -/
def fromStrRadix16 (l : List Char) (bound : Nat) : Option Nat :=
  if !l.isEmpty && l.all isHexDigit && decide (hexListVal l < bound) then
    some (hexListVal l)
  else
    none

/-- `hex_as_u32`: strip every dash, then convert base-16.  The Rust
function panics when the stripped string cannot be parsed as a `u32`;
the panic is modelled as `none`. -/
def hex_as_u32 (l : List Char) : Option Nat :=
  fromStrRadix16 (l.filter (· != '-')) (2 ^ 32)

/-- `hex_as_u64`: strip every dash, then convert base-16; panic on
failure modelled as `none`. -/
def hex_as_u64 (l : List Char) : Option Nat :=
  fromStrRadix16 (l.filter (· != '-')) (2 ^ 64)

/-! ## Line grammar (`src/aida_parse.rs`)

Each `try_match_*` regex is anchored on both sides and deterministic,
so it is embedded as a direct parse of the line.  `.`/`.*` in the
regexes matches every character except a newline. -/

/-- Low-level representation of a single input line (enum `InputLine`). -/
inductive InputLine where
  | GroupHeader (name : List Char)
  | Cpuid (query : CpuidQuery) (result : CpuidResult)
  | Msr (index : Nat) (value : Nat)
deriving DecidableEq, Repr

/-- Outcome of matching one line: no regex match, a parsed line, or a
Rust panic raised by `hex_as_u32`/`hex_as_u64` on a matched line. -/
inductive LineResult where
  | noMatch
  | panic
  | found (l : InputLine)
deriving DecidableEq, Repr

/-- Consume an exact literal from the front of the input. -/
def dropLit : List Char → List Char → Option (List Char)
  | [], s => some s
  | _ :: _, [] => none
  | c :: cs, d :: ds => if c = d then dropLit cs ds else none

/-- Consume exactly eight hex digits (`[0-9a-fA-F]{8}`). -/
def hex8 (l : List Char) : Option (List Char × List Char) :=
  if (l.take 8).length = 8 && (l.take 8).all isHexDigit then
    some (l.take 8, l.drop 8)
  else
    none

/-- `try_match_group_header`, i.e. the regex `^------\[ (.+) ]------$`:
the line is `------[ `, a non-empty newline-free name, ` ]------`. -/
def try_match_group_header (s : List Char) : Option InputLine :=
  if s.length ≥ 17 ∧ s.take 8 = "------[ ".toList ∧
      s.drop (s.length - 8) = " ]------".toList ∧
      ((s.drop 8).take (s.length - 16)).all (fun c => decide (c ≠ '\n')) then
    some (.GroupHeader ((s.drop 8).take (s.length - 16)))
  else
    none

/-- The capture groups of the `try_match_cpuid` regex
`^CPUID ([0-9a-fA-F]+): (h8)-(h8)-(h8)-(h8)(?: \[SL ([0-9a-fA-F]{2})\]|.*)$`.
The leaf is the maximal hex-digit run after `CPUID ` (it must be
followed by `: `); the `\[SL ..\]` alternative is preferred and only
applies when it reaches the end of the line exactly; otherwise the
`.*` branch swallows any newline-free trailer and leaves the subleaf
capture empty. -/
structure CpuidCaptures where
  leafD : List Char
  h1 : List Char
  h2 : List Char
  h3 : List Char
  h4 : List Char
  slD : Option (List Char)
deriving DecidableEq, Repr

/-- Run the `try_match_cpuid` regex, returning its capture groups. -/
def cpuid_captures (s : List Char) : Option CpuidCaptures := do
  let r0 ← dropLit "CPUID ".toList s
  let leafD := r0.takeWhile isHexDigit
  if leafD.isEmpty then
    none
  else
    let r1 ← dropLit ": ".toList (r0.dropWhile isHexDigit)
    let (h1, r2) ← hex8 r1
    let r2b ← dropLit ['-'] r2
    let (h2, r3) ← hex8 r2b
    let r3b ← dropLit ['-'] r3
    let (h3, r4) ← hex8 r3b
    let r4b ← dropLit ['-'] r4
    let (h4, rest) ← hex8 r4b
    match dropLit " [SL ".toList rest with
    | some [d1, d2, ']'] =>
      if isHexDigit d1 && isHexDigit d2 then
        some ⟨leafD, h1, h2, h3, h4, some [d1, d2]⟩
      else if rest.all (fun c => decide (c ≠ '\n')) then
        some ⟨leafD, h1, h2, h3, h4, none⟩
      else
        none
    | _ =>
      if rest.all (fun c => decide (c ≠ '\n')) then
        some ⟨leafD, h1, h2, h3, h4, none⟩
      else
        none

/-- `try_match_cpuid`: run the regex, then convert the captured fields
(with a missing subleaf capture defaulting to 0, as in
`matches.get(6).map(hex_as_u32).unwrap_or(0)`). -/
def try_match_cpuid (s : List Char) : LineResult :=
  match cpuid_captures s with
  | none => .noMatch
  | some caps =>
    match hex_as_u32 caps.leafD, hex_as_u32 caps.h1, hex_as_u32 caps.h2,
        hex_as_u32 caps.h3, hex_as_u32 caps.h4,
        (match caps.slD with
         | none => some 0
         | some d => hex_as_u32 d) with
    | some leaf, some eax, some ebx, some ecx, some edx, some sl =>
      .found (.Cpuid ⟨leaf, sl⟩ ⟨eax, ebx, ecx, edx⟩)
    | _, _, _, _, _, _ => .panic

/-- The capture groups of the `try_match_msr` regex
`^MSR ([0-9a-fA-F]+): ([-0-9a-fA-F]{19}).*$`. -/
def msr_captures (s : List Char) : Option (List Char × List Char) := do
  let r0 ← dropLit "MSR ".toList s
  let idxD := r0.takeWhile isHexDigit
  if idxD.isEmpty then
    none
  else
    let r1 ← dropLit ": ".toList (r0.dropWhile isHexDigit)
    if (r1.take 19).length = 19 &&
        (r1.take 19).all (fun c => isHexDigit c || decide (c = '-')) &&
        (r1.drop 19).all (fun c => decide (c ≠ '\n')) then
      some (idxD, r1.take 19)
    else
      none

/-- `try_match_msr`: run the regex, then convert index and value. -/
def try_match_msr (s : List Char) : LineResult :=
  match msr_captures s with
  | none => .noMatch
  | some (idxD, v) =>
    match hex_as_u32 idxD, hex_as_u64 v with
    | some i, some value => .found (.Msr i value)
    | _, _ => .panic

/-- `InputLine::from_str`: first matching classifier wins (group
header, then CPUID, then MSR); an unmatched line is an `Err` that the
caller discards. -/
def parseLine (s : List Char) : LineResult :=
  match try_match_group_header s with
  | some l => .found l
  | none =>
    match try_match_cpuid s with
    | .noMatch => try_match_msr s
    | r => r

/-! ## Dump assembly (`impl FromStr for AidaCpuidDump`) -/

/-- Split a character list at every newline (keeping a final empty
segment when the input ends with a newline). -/
def splitOnNl : List Char → List (List Char)
  | [] => [[]]
  | c :: rest =>
    match splitOnNl rest with
    | [] => [[c]]
    | h :: t => if c = '\n' then [] :: h :: t else (c :: h) :: t

/-- Rust `str::lines`: split at `\n`; a segment that was terminated by
the newline additionally loses one trailing `\r`; a final empty
remainder yields no line. -/
def rustLines (s : List Char) : List (List Char) :=
  match splitOnNl s with
  | [] => []
  | segs =>
    (segs.dropLast.map fun l => if l.getLast? = some '\r' then l.dropLast else l) ++
      (match segs.getLast? with
       | some [] => []
       | some last => [last]
       | none => [])

/-- Parse every line in order, keeping matches and dropping unmatched
lines; a panic in any line conversion aborts the whole run (`none`). -/
def parseLines : List (List Char) → Option (List InputLine)
  | [] => some []
  | l :: ls =>
    match parseLine l with
    | .panic => none
    | .noMatch => parseLines ls
    | .found il => (parseLines ls).map (il :: ·)

/-- The fold that partitions parsed lines into named groups: a header
starts a new group at the end of the accumulator, any other line is
appended to the current (last) group; everything before the first
header belongs to the group named by the empty string. -/
def groupsVec (ls : List InputLine) : List (List Char × List InputLine) :=
  ls.foldl
    (fun acc line =>
      match line with
      | .GroupHeader name => acc ++ [(name, [])]
      | l => acc.dropLast ++ [((acc.getLastD ([], [])).1, (acc.getLastD ([], [])).2 ++ [l])])
    [([], [])]

/-- The CPUID pairs of a group's lines, in encounter order. -/
def cpuidPairs (content : List InputLine) : List (CpuidQuery × CpuidResult) :=
  content.filterMap fun l =>
    match l with
    | .Cpuid q r => some (q, r)
    | _ => none

/-- The MSR pairs of a group's lines, in encounter order. -/
def msrPairs (content : List InputLine) : List (Nat × Nat) :=
  content.filterMap fun l =>
    match l with
    | .Msr i v => some (i, v)
    | _ => none

/-- Collect a group's CPUID lines into the dump's CPUID mapping. -/
def cpuidMapOf (content : List InputLine) : Map CpuidQuery CpuidResult :=
  Map.ofList (cpuidPairs content)

/-- Collect a group's MSR lines into the dump's MSR mapping. -/
def msrMapOf (content : List InputLine) : Map Nat Nat :=
  Map.ofList (msrPairs content)

/-- The parse failure marker (struct `ParseAidaCpuidDumpError`). -/
structure ParseAidaCpuidDumpError where

/-- The parsed dump (struct `AidaCpuidDump`). -/
structure AidaCpuidDump where
  cpuid : Map CpuidQuery CpuidResult
  msrs : Map Nat Nat

/-- The post-line-parsing part of `AidaCpuidDump::from_str`: group the
parsed lines, reject duplicate group names (comparing the group count
against the cardinality of the set of names), then require and collect
the two groups `Logical CPU #0` and `MSR Registers`. -/
def fromStrLines (ls : List InputLine) : Except ParseAidaCpuidDumpError AidaCpuidDump :=
  if ((groupsVec ls).map Prod.fst).length ≠ ((groupsVec ls).map Prod.fst).dedup.length then
    .error ⟨⟩
  else
    match Map.ofList (groupsVec ls) "Logical CPU #0".toList,
        Map.ofList (groupsVec ls) "MSR Registers".toList with
    | some cpuLines, some msrLines => .ok ⟨cpuidMapOf cpuLines, msrMapOf msrLines⟩
    | _, _ => .error ⟨⟩

/-- `AidaCpuidDump::from_str`: split the input into lines, classify
each line (discarding unmatched ones), then assemble the dump.  A
panic while converting a matched line's numbers is modelled as the
outer `none`. -/
def AidaCpuidDump.from_str (s : List Char) : Option (Except ParseAidaCpuidDumpError AidaCpuidDump) :=
  (parseLines (rustLines s)).map fromStrLines

/-- Look a CPUID query up in the dump produced by a `from_str` run. -/
def dumpCpuidLookup (r : Option (Except ParseAidaCpuidDumpError AidaCpuidDump))
    (q : CpuidQuery) : Option CpuidResult :=
  match r with
  | some (.ok d) => d.cpuid q
  | _ => none

/-- Look an MSR index up in the dump produced by a `from_str` run. -/
def dumpMsrLookup (r : Option (Except ParseAidaCpuidDumpError AidaCpuidDump))
    (i : Nat) : Option Nat :=
  match r with
  | some (.ok d) => d.msrs i
  | _ => none

/-! ## Supporting lemmas -/

/-- The value of the last pair of `l` whose key is `k`, if any. -/
def lastValue {α β : Type} [DecidableEq α] (l : List (α × β)) (k : α) : Option β :=
  ((l.filter fun p => decide (p.1 = k)).getLast?).map Prod.snd

theorem lastValue_nil {α β : Type} [DecidableEq α] (k : α) :
    lastValue ([] : List (α × β)) k = none := rfl

theorem lastValue_cons {α β : Type} [DecidableEq α] (p : α × β) (l : List (α × β)) (k : α) :
    lastValue (p :: l) k =
      if p.1 = k then some ((lastValue l k).getD p.2) else lastValue l k := by
  by_cases h : p.1 = k
  · rw [if_pos h, lastValue, lastValue, List.filter_cons, if_pos (by simpa using h)]
    cases hf : l.filter fun q => decide (q.1 = k) with
    | nil => simp [hf]
    | cons q qs => simp [hf, List.getLast?_cons_cons, List.getLast?_cons]
  · rw [if_neg h, lastValue, lastValue, List.filter_cons, if_neg (by simpa using h)]

theorem foldl_insert_apply {α β : Type} [DecidableEq α] (l : List (α × β))
    (m : Map α β) (k : α) :
    (l.foldl (fun m p => m.insert p.1 p.2) m) k = (lastValue l k).or (m k) := by
  induction l generalizing m with
  | nil => simp [lastValue_nil]
  | cons p rest ih =>
    rw [List.foldl_cons, ih, lastValue_cons]
    by_cases h : p.1 = k
    · rw [if_pos h]
      have hins : (m.insert p.1 p.2) k = some p.2 := by
        simp [Map.insert, h.symm]
      rw [hins]
      cases hrest : lastValue rest k <;> simp
    · rw [if_neg h]
      have hins : (m.insert p.1 p.2) k = m k := by
        simp only [Map.insert]
        exact if_neg fun hk => h hk.symm
      rw [hins]

/-- `collect` into a map realises last-write-wins lookup. -/
theorem Map.ofList_apply {α β : Type} [DecidableEq α] (l : List (α × β)) (k : α) :
    Map.ofList l k = lastValue l k := by
  rw [Map.ofList, foldl_insert_apply]
  cases lastValue l k <;> rfl

/-- A key is missing from a collected map exactly when no pair carries it. -/
theorem Map.ofList_eq_none {α β : Type} [DecidableEq α] (l : List (α × β)) (k : α) :
    Map.ofList l k = none ↔ k ∉ l.map Prod.fst := by
  rw [Map.ofList_apply]
  induction l with
  | nil => simp [lastValue_nil]
  | cons p rest ih =>
    rw [lastValue_cons, List.map_cons]
    by_cases h : p.1 = k
    · rw [if_pos h]
      constructor
      · intro hc
        exact absurd hc (Option.some_ne_none _)
      · intro hmem
        refine absurd ?_ hmem
        rw [h]
        exact List.mem_cons_self _ _
    · have hk : ¬k = p.1 := fun hk => h hk.symm
      rw [if_neg h, ih, List.mem_cons]
      constructor
      · intro hnm hor
        exact hor.elim hk hnm
      · intro hor hm
        exact hor (Or.inr hm)

/-- The duplicate-name check of `from_str` (group count versus the
cardinality of the set of group names) detects exactly non-distinct
names. -/
theorem nodup_iff_dedup_length {α : Type} [DecidableEq α] (l : List α) :
    l.Nodup ↔ l.dedup.length = l.length := by
  constructor
  · intro h
    rw [List.dedup_eq_self.mpr h]
  · intro h
    have hs : l.dedup.Sublist l := List.dedup_sublist l
    rw [← hs.eq_of_length h]
    exact List.nodup_dedup l

/-! ## Claims about the evaluator -/

/-- C1 (amended): in `And`/`Or`, unknown-ness of the first operand
always propagates, and unknown-ness of the second operand propagates
exactly when the first operand does not already decide the result;
because `&&`/`||` short-circuit, `And` of a false first operand is
`false` and `Or` of a true first operand is `true` even when the other
operand is unknown. -/
theorem claim_C1 (e1 e2 : BoolExpression) (info : CpuInformation) :
    (e1.evaluate info = .result none →
      (BoolExpression.And e1 e2).evaluate info = .result none ∧
      (BoolExpression.Or e1 e2).evaluate info = .result none) ∧
    (e1.evaluate info = .result (some true) → e2.evaluate info = .result none →
      (BoolExpression.And e1 e2).evaluate info = .result none) ∧
    (e1.evaluate info = .result (some false) → e2.evaluate info = .result none →
      (BoolExpression.Or e1 e2).evaluate info = .result none) ∧
    (e1.evaluate info = .result (some false) →
      (BoolExpression.And e1 e2).evaluate info = .result (some false)) ∧
    (e1.evaluate info = .result (some true) →
      (BoolExpression.Or e1 e2).evaluate info = .result (some true)) := by
  refine ⟨fun h1 => ⟨?_, ?_⟩, fun h1 h2 => ?_, fun h1 h2 => ?_, fun h1 => ?_, fun h1 => ?_⟩ <;>
    simp [BoolExpression.evaluate, h1] <;> exact h2

/-- C1, witness: a concrete strict-propagation instance, `And` of a
true first operand and an unknown second operand is unknown. -/
theorem claim_C1_witness :
    BoolExpression.evaluate (.CpuidBitSet ⟨0, 0⟩ .Eax 0) onesInfo = .result (some true) ∧
    BoolExpression.evaluate (.MsrBitSet 0 0) onesInfo = .result none ∧
    BoolExpression.evaluate (.And (.CpuidBitSet ⟨0, 0⟩ .Eax 0) (.MsrBitSet 0 0)) onesInfo =
      .result none :=
  ⟨rfl, rfl,
    (claim_C1 (.CpuidBitSet ⟨0, 0⟩ .Eax 0) (.MsrBitSet 0 0) onesInfo).2.1 rfl rfl⟩

/-- C1, counterexample to the claim as stated: with `e1` evaluating to
false (resp. true) and `e2` unknown, `And e1 e2` evaluates to false
(resp. `Or e1 e2` to true), not to unknown. -/
theorem claim_C1_counterexample :
    BoolExpression.evaluate (.MsrBitSet 0 0) emptyInfo = .result none ∧
    BoolExpression.evaluate (.CpuidBitSet ⟨0, 0⟩ .Eax 0) emptyInfo = .result (some false) ∧
    BoolExpression.evaluate (.And (.CpuidBitSet ⟨0, 0⟩ .Eax 0) (.MsrBitSet 0 0)) emptyInfo =
      .result (some false) ∧
    BoolExpression.evaluate (.CpuidBitSet ⟨0, 0⟩ .Eax 0) onesInfo = .result (some true) ∧
    BoolExpression.evaluate (.MsrBitSet 0 0) onesInfo = .result none ∧
    BoolExpression.evaluate (.Or (.CpuidBitSet ⟨0, 0⟩ .Eax 0) (.MsrBitSet 0 0)) onesInfo =
      .result (some true) :=
  ⟨rfl, rfl, rfl, rfl, rfl, rfl⟩

/-- C2: a CPUID bit test with bit index below 32 evaluates to exactly
`false` (never unknown) whenever the data source reports the queried
leaf/subleaf pair as absent. -/
theorem claim_C2 (q : CpuidQuery) (reg : CpuidRegister) (bit : Nat) (info : CpuInformation)
    (hbit : bit < 32) (habsent : info.cpuid q = none) :
    BoolExpression.evaluate (.CpuidBitSet q reg bit) info = .result (some false) := by
  simp [BoolExpression.evaluate, CpuInformation.is_cpuid_query_valid, hbit, habsent]

/-- C2, witness. -/
theorem claim_C2_witness :
    (0 : Nat) < 32 ∧ emptyInfo.cpuid ⟨1, 2⟩ = none ∧
    BoolExpression.evaluate (.CpuidBitSet ⟨1, 2⟩ .Ecx 0) emptyInfo = .result (some false) :=
  ⟨by decide, rfl, claim_C2 ⟨1, 2⟩ .Ecx 0 emptyInfo (by decide) rfl⟩

/-- C3: an MSR bit test with bit index below 64 evaluates to exactly
unknown whenever `rdmsr` reports no value for the index (no failure,
no defaulting to zero). -/
theorem claim_C3 (index bit : Nat) (info : CpuInformation)
    (hbit : bit < 64) (habsent : info.rdmsr index = none) :
    BoolExpression.evaluate (.MsrBitSet index bit) info = .result none := by
  simp [BoolExpression.evaluate, hbit, habsent]

/-- C3, witness. -/
theorem claim_C3_witness :
    (63 : Nat) < 64 ∧ emptyInfo.rdmsr 0x48b = none ∧
    BoolExpression.evaluate (.MsrBitSet 0x48b 63) emptyInfo = .result none :=
  ⟨by decide, rfl, claim_C3 0x48b 63 emptyInfo (by decide) rfl⟩

/-- C7: on an expression whose every CPUID bit index is below 32 and
every MSR bit index below 64, `evaluate` hits no assertion and returns
one of the three tri-state values, for every data source. -/
theorem claim_C7 (e : BoolExpression) (info : CpuInformation)
    (h : e.bitsInRange = true) :
    ∃ v : Option Bool, e.evaluate info = .result v := by
  induction e with
  | CpuidBitSet q reg bit =>
    have hb : bit < 32 := by simpa [BoolExpression.bitsInRange] using h
    by_cases hv : info.is_cpuid_query_valid q
    · cases hc : info.cpuid q with
      | none => exact ⟨none, by simp [BoolExpression.evaluate, hb, hv, hc]⟩
      | some r =>
        exact ⟨some ((r.get reg &&& 1 <<< bit) != 0),
          by simp [BoolExpression.evaluate, hb, hv, hc]⟩
    · exact ⟨some false, by simp [BoolExpression.evaluate, hb, hv]⟩
  | MsrBitSet index bit =>
    have hb : bit < 64 := by simpa [BoolExpression.bitsInRange] using h
    cases hc : info.rdmsr index with
    | none => exact ⟨none, by simp [BoolExpression.evaluate, hb, hc]⟩
    | some v =>
      exact ⟨some ((v &&& 1 <<< bit) != 0), by simp [BoolExpression.evaluate, hb, hc]⟩
  | And e1 e2 ih1 ih2 =>
    rw [BoolExpression.bitsInRange, Bool.and_eq_true] at h
    obtain ⟨v1, hv1⟩ := ih1 h.1
    obtain ⟨v2, hv2⟩ := ih2 h.2
    match v1, hv1 with
    | none, hv1 => exact ⟨none, by simp [BoolExpression.evaluate, hv1]⟩
    | some false, hv1 => exact ⟨some false, by simp [BoolExpression.evaluate, hv1]⟩
    | some true, hv1 => exact ⟨v2, by simp [BoolExpression.evaluate, hv1, hv2]⟩
  | Or e1 e2 ih1 ih2 =>
    rw [BoolExpression.bitsInRange, Bool.and_eq_true] at h
    obtain ⟨v1, hv1⟩ := ih1 h.1
    obtain ⟨v2, hv2⟩ := ih2 h.2
    match v1, hv1 with
    | none, hv1 => exact ⟨none, by simp [BoolExpression.evaluate, hv1]⟩
    | some true, hv1 => exact ⟨some true, by simp [BoolExpression.evaluate, hv1]⟩
    | some false, hv1 => exact ⟨v2, by simp [BoolExpression.evaluate, hv1, hv2]⟩
  | Not e ih =>
    rw [BoolExpression.bitsInRange] at h
    obtain ⟨v, hv⟩ := ih h
    exact ⟨v.map not, by simp [BoolExpression.evaluate, hv]⟩

/-- C7, witness. -/
theorem claim_C7_witness :
    (BoolExpression.And (.CpuidBitSet ⟨7, 0⟩ .Ebx 31) (.Not (.MsrBitSet 0x48b 63))).bitsInRange =
      true ∧
    ∃ v : Option Bool,
      (BoolExpression.And (.CpuidBitSet ⟨7, 0⟩ .Ebx 31)
        (.Not (.MsrBitSet 0x48b 63))).evaluate emptyInfo = .result v :=
  ⟨by decide,
    claim_C7 (.And (.CpuidBitSet ⟨7, 0⟩ .Ebx 31) (.Not (.MsrBitSet 0x48b 63))) emptyInfo
      (by decide)⟩

/-- C8: `max_extended_leaf` is the `eax` of leaf `0x8000_0000`
(subleaf 0) when known and `0x8000_0000` when unknown;
`max_standard_leaf` is the `eax` of leaf 0 (subleaf 0) when known and
0 when unknown. -/
theorem claim_C8 (info : CpuInformation) :
    (∀ r, info.cpuid ⟨0x80000000, 0⟩ = some r → info.max_extended_leaf = r.eax) ∧
    (info.cpuid ⟨0x80000000, 0⟩ = none → info.max_extended_leaf = 0x80000000) ∧
    (∀ r, info.cpuid ⟨0, 0⟩ = some r → info.max_standard_leaf = r.eax) ∧
    (info.cpuid ⟨0, 0⟩ = none → info.max_standard_leaf = 0) := by
  refine ⟨fun r h => ?_, fun h => ?_, fun r h => ?_, fun h => ?_⟩ <;>
    simp [CpuInformation.max_extended_leaf, CpuInformation.max_standard_leaf, h]

/-- C8, witness. -/
theorem claim_C8_witness :
    onesInfo.cpuid ⟨0x80000000, 0⟩ = some ⟨1, 0, 0, 0⟩ ∧ onesInfo.max_extended_leaf = 1 ∧
    onesInfo.cpuid ⟨0, 0⟩ = some ⟨1, 0, 0, 0⟩ ∧ onesInfo.max_standard_leaf = 1 ∧
    emptyInfo.cpuid ⟨0x80000000, 0⟩ = none ∧ emptyInfo.max_extended_leaf = 0x80000000 ∧
    emptyInfo.cpuid ⟨0, 0⟩ = none ∧ emptyInfo.max_standard_leaf = 0 :=
  ⟨rfl, (claim_C8 onesInfo).1 ⟨1, 0, 0, 0⟩ rfl, rfl, (claim_C8 onesInfo).2.2.1 ⟨1, 0, 0, 0⟩ rfl,
    rfl, (claim_C8 emptyInfo).2.1 rfl, rfl, (claim_C8 emptyInfo).2.2.2 rfl⟩

/-! ## Claims about hex parsing and the line grammar -/

/-- Dash-stripping is the identity on digit-only strings. -/
theorem hex_filter_id (l : List Char) (h : l.all isHexDigit = true) :
    l.filter (· != '-') = l := by
  rw [List.filter_eq_self]
  intro a ha
  have hhex : isHexDigit a = true := by
    rw [List.all_eq_true] at h
    exact h a ha
  rw [bne_iff_ne]
  intro hc
  subst hc
  exact absurd hhex (by decide)

/-- C9: `hex_as_u32`/`hex_as_u64` delete every dash and convert
base-16 — on the two spec examples and, on dash-free hex strings whose
value fits the width, agreeing with plain base-16 conversion. -/
theorem claim_C9 :
    hex_as_u32 "FFF9-FFFE".toList = some 0xFFF9FFFE ∧
    hex_as_u64 "0000-0000-0030-1CC3".toList = some 0x301CC3 ∧
    (∀ l : List Char, l ≠ [] → l.all isHexDigit = true → hexListVal l < 2 ^ 32 →
      hex_as_u32 l = some (hexListVal l)) ∧
    (∀ l : List Char, l ≠ [] → l.all isHexDigit = true → hexListVal l < 2 ^ 64 →
      hex_as_u64 l = some (hexListVal l)) := by
  refine ⟨by decide, by decide, fun l h1 h2 h3 => ?_, fun l h1 h2 h3 => ?_⟩
  · have hcond : (!l.isEmpty && l.all isHexDigit && decide (hexListVal l < 2 ^ 32)) = true := by
      simp only [h1, h2, Bool.and_true, Bool.true_and, List.isEmpty_eq_false.mpr h1,
        Bool.not_false, decide_eq_true_eq]
      exact h3
    rw [hex_as_u32, hex_filter_id l h2, fromStrRadix16, if_pos hcond]
  · have hcond : (!l.isEmpty && l.all isHexDigit && decide (hexListVal l < 2 ^ 64)) = true := by
      simp only [h1, h2, Bool.and_true, Bool.true_and, List.isEmpty_eq_false.mpr h1,
        Bool.not_false, decide_eq_true_eq]
      exact h3
    rw [hex_as_u64, hex_filter_id l h2, fromStrRadix16, if_pos hcond]

/-- C9, witness. -/
theorem claim_C9_witness :
    ("aB3".toList ≠ [] ∧ "aB3".toList.all isHexDigit = true ∧
      hexListVal "aB3".toList < 2 ^ 32) ∧
    hex_as_u32 "aB3".toList = some (hexListVal "aB3".toList) :=
  ⟨⟨by decide, by decide, by decide⟩,
    claim_C9.2.2.1 "aB3".toList (by decide) (by decide) (by decide)⟩

/-- C10: a CPUID line whose trailing annotation resembles a subleaf
marker but whose hex field is not exactly two digits (`[SL 3]`,
`[SL 003]`) is still accepted via the catch-all trailing-text branch
and is recorded with subleaf 0, while a well-formed `[SL 03]` yields
the written subleaf. -/
theorem claim_C10 :
    try_match_cpuid "CPUID 00000004: 1C03C163-03C0003F-00003FFF-00000006 [SL 3]".toList =
      .found (.Cpuid ⟨4, 0⟩ ⟨0x1C03C163, 0x03C0003F, 0x00003FFF, 0x00000006⟩) ∧
    try_match_cpuid "CPUID 00000004: 1C03C163-03C0003F-00003FFF-00000006 [SL 003]".toList =
      .found (.Cpuid ⟨4, 0⟩ ⟨0x1C03C163, 0x03C0003F, 0x00003FFF, 0x00000006⟩) ∧
    try_match_cpuid "CPUID 00000004: 1C03C163-03C0003F-00003FFF-00000006 [SL 03]".toList =
      .found (.Cpuid ⟨4, 3⟩ ⟨0x1C03C163, 0x03C0003F, 0x00003FFF, 0x00000006⟩) :=
  ⟨by decide, by decide, by decide⟩

/-! ## Claims about `AidaCpuidDump::from_str` -/

/-- A dump whose MSR group contains a line that matches the MSR regex
but whose value field is all dashes: stripping dashes leaves an empty
string, `u64::from_str_radix` fails and `hex_as_u64` panics. -/
def panicDump : List Char :=
  ("------[ Logical CPU #0 ]------\n------[ MSR Registers ]------\nMSR 00000000: -------------------").toList

/-- C4: the value-shape leniency holds (a malformed value field such
as an error marker fails the regex and is discarded), but `from_str`
is not total: a 19-dash value field matches the regex and then panics
in `hex_as_u64` (modelled as the `none` outcome), so the claimed
never-crashes property fails. -/
theorem claim_C4 :
    hex_as_u64 "-------------------".toList = none ∧
    try_match_msr "MSR 00000000: -------------------".toList = .panic ∧
    try_match_msr "MSR 00000300: < FAILED >".toList = .noMatch ∧
    AidaCpuidDump.from_str panicDump = none := by
  refine ⟨by decide, by decide, by decide, ?_⟩
  rw [AidaCpuidDump.from_str, show parseLines (rustLines panicDump) = none from by decide]
  rfl

/-- C5 (amended with the no-panic proviso): when every line parses
without a numeric-conversion panic, `from_str` fails exactly when two
groups share a name or one of the two required groups is missing, and
in every other case returns a complete dump. -/
theorem claim_C5 (s : List Char) (ls : List InputLine)
    (h : parseLines (rustLines s) = some ls) :
    (AidaCpuidDump.from_str s = some (Except.error ⟨⟩) ↔
      ¬ ((groupsVec ls).map Prod.fst).Nodup ∨
        "Logical CPU #0".toList ∉ (groupsVec ls).map Prod.fst ∨
        "MSR Registers".toList ∉ (groupsVec ls).map Prod.fst) ∧
    ((((groupsVec ls).map Prod.fst).Nodup ∧
        "Logical CPU #0".toList ∈ (groupsVec ls).map Prod.fst ∧
        "MSR Registers".toList ∈ (groupsVec ls).map Prod.fst) →
      ∃ d, AidaCpuidDump.from_str s = some (Except.ok d)) := by
  have hfs : AidaCpuidDump.from_str s = some (fromStrLines ls) := by
    rw [AidaCpuidDump.from_str, h]
    rfl
  rw [hfs]
  simp only [Option.some_inj]
  by_cases hnd : ((groupsVec ls).map Prod.fst).Nodup
  · have hlen := (nodup_iff_dedup_length ((groupsVec ls).map Prod.fst)).mp hnd
    cases hc : Map.ofList (groupsVec ls) "Logical CPU #0".toList with
    | none =>
      have hcm := (Map.ofList_eq_none (groupsVec ls) "Logical CPU #0".toList).mp hc
      simp only [fromStrLines, if_neg (not_not_intro hlen.symm), hc]
      exact ⟨⟨fun _ => Or.inr (Or.inl hcm), fun _ => trivial⟩,
        fun hcond => absurd hcond.2.1 hcm⟩
    | some cpuLines =>
      have hcmem : "Logical CPU #0".toList ∈ (groupsVec ls).map Prod.fst := by
        by_contra hno
        rw [(Map.ofList_eq_none (groupsVec ls) "Logical CPU #0".toList).mpr hno] at hc
        exact Option.noConfusion hc
      cases hm : Map.ofList (groupsVec ls) "MSR Registers".toList with
      | none =>
        have hmm := (Map.ofList_eq_none (groupsVec ls) "MSR Registers".toList).mp hm
        simp only [fromStrLines, if_neg (not_not_intro hlen.symm), hc, hm]
        exact ⟨⟨fun _ => Or.inr (Or.inr hmm), fun _ => trivial⟩,
          fun hcond => absurd hcond.2.2 hmm⟩
      | some msrLines =>
        have hmmem : "MSR Registers".toList ∈ (groupsVec ls).map Prod.fst := by
          by_contra hno
          rw [(Map.ofList_eq_none (groupsVec ls) "MSR Registers".toList).mpr hno] at hm
          exact Option.noConfusion hm
        simp only [fromStrLines, if_neg (not_not_intro hlen.symm), hc, hm]
        refine ⟨⟨fun hcontra => Except.noConfusion hcontra, fun hor => ?_⟩,
          fun _ => ⟨_, rfl⟩⟩
        rcases hor with hor | hor | hor
        · exact absurd hnd hor
        · exact absurd hcmem hor
        · exact absurd hmmem hor
  · have hlen : ((groupsVec ls).map Prod.fst).length ≠
        ((groupsVec ls).map Prod.fst).dedup.length := by
      intro heq
      exact hnd ((nodup_iff_dedup_length _).mpr heq.symm)
    simp only [fromStrLines, if_pos hlen]
    exact ⟨⟨fun _ => Or.inl hnd, fun _ => trivial⟩, fun hcond => absurd hcond.1 hnd⟩

/-- An input whose CPU group is present but whose MSR group is absent. -/
def c5input : List Char :=
  ("------[ Logical CPU #0 ]------\nCPUID 00000000: 00000001-00000002-00000003-00000004").toList

/-- The parsed lines of `c5input`. -/
def c5lines : List InputLine :=
  [.GroupHeader "Logical CPU #0".toList, .Cpuid ⟨0, 0⟩ ⟨1, 2, 3, 4⟩]

/-- C5, witness: the theorem applied to a concrete dump missing the
`MSR Registers` group. -/
theorem claim_C5_witness :
    parseLines (rustLines c5input) = some c5lines ∧
    ((AidaCpuidDump.from_str c5input = some (Except.error ⟨⟩) ↔
      ¬ ((groupsVec c5lines).map Prod.fst).Nodup ∨
        "Logical CPU #0".toList ∉ (groupsVec c5lines).map Prod.fst ∨
        "MSR Registers".toList ∉ (groupsVec c5lines).map Prod.fst) ∧
     ((((groupsVec c5lines).map Prod.fst).Nodup ∧
        "Logical CPU #0".toList ∈ (groupsVec c5lines).map Prod.fst ∧
        "MSR Registers".toList ∈ (groupsVec c5lines).map Prod.fst) →
      ∃ d, AidaCpuidDump.from_str c5input = some (Except.ok d))) :=
  ⟨by decide, claim_C5 c5input c5lines (by decide)⟩

/-- C5, counterexample to the claim as stated: on a dump containing
both required groups, no duplicate group names, and a panicking MSR
line, `from_str` neither reports a parse failure nor returns a dump —
it crashes (the `none` outcome). -/
theorem claim_C5_counterexample :
    AidaCpuidDump.from_str panicDump = none ∧
    AidaCpuidDump.from_str panicDump ≠ some (Except.error ⟨⟩) ∧
    ∀ d, AidaCpuidDump.from_str panicDump ≠ some (Except.ok d) := by
  have h : AidaCpuidDump.from_str panicDump = none := by
    rw [AidaCpuidDump.from_str, show parseLines (rustLines panicDump) = none from by decide]
    rfl
  refine ⟨h, ?_, fun d => ?_⟩ <;> simp [h]

/-- A dump with a duplicated CPUID key and a duplicated MSR index. -/
def c6dump : List Char :=
  ("------[ Logical CPU #0 ]------\nCPUID 00000001: 00000001-00000000-00000000-00000000\nCPUID 00000001: 00000002-00000000-00000000-00000000\n------[ MSR Registers ]------\nMSR 00000017: 0000-0000-0000-0001\nMSR 00000017: 0000-0000-0000-0002\n").toList

/-- C6: the dump's two mappings are built with last-write-wins
semantics — looking up a key yields the value of the last line with
that key in encounter order — and, end to end, a dump with duplicated
CPUID and MSR keys maps each key to the last value. -/
theorem claim_C6 :
    (∀ (content : List InputLine) (q : CpuidQuery),
      cpuidMapOf content q = lastValue (cpuidPairs content) q) ∧
    (∀ (content : List InputLine) (i : Nat),
      msrMapOf content i = lastValue (msrPairs content) i) ∧
    dumpCpuidLookup (AidaCpuidDump.from_str c6dump) ⟨1, 0⟩ = some ⟨2, 0, 0, 0⟩ ∧
    dumpMsrLookup (AidaCpuidDump.from_str c6dump) 0x17 = some 2 :=
  ⟨fun content q => Map.ofList_apply (cpuidPairs content) q,
    fun content i => Map.ofList_apply (msrPairs content) i,
    by decide, by decide⟩
